import Mathlib

/-!
Shallow embedding of the CoD dice roller core (`src/commands/roll.rs` and
`src/util/characters.rs`) and proofs about it.

Rust strings are modelled as Lean `String`; the string primitives the code
uses (`split_whitespace`, `str::replace`, `trim`, `contains`, `to_lowercase`,
integer parsing) are re-implemented below over `List Char` with the same
semantics as the Rust standard library, so that everything computes by
kernel reduction. Machine integers (`i64`, `u64`) are modelled as `Int` /
`Nat`; none of the verified behaviour is overflow-sensitive, and `u64`
parsing keeps its range check.  The random sampler
`Uniform::new_inclusive(1, 10)` is modelled as an explicit finite list of
pre-drawn values consumed left to right.
-/

namespace DiceRoller

/-- Rust `char::is_whitespace` restricted to the ASCII cases the bot sees. -/
def isWs (c : Char) : Bool := c.isWhitespace

/-- Helper for `split_whitespace`: accumulate the current word (reversed). -/
def splitWsAux : List Char → List Char → List (List Char)
  | [], acc => if acc.isEmpty then [] else [acc.reverse]
  | c :: rest, acc =>
    if isWs c then
      if acc.isEmpty then splitWsAux rest [] else acc.reverse :: splitWsAux rest []
    else
      splitWsAux rest (c :: acc)

/-- Rust `str::split_whitespace`: maximal runs of non-whitespace, no empties. -/
def split_whitespace (s : String) : List String :=
  (splitWsAux s.data []).map String.mk

/-- Rust `str::trim`: strip leading and trailing whitespace. -/
def str_trim (s : String) : String :=
  String.mk (((s.data.dropWhile isWs).reverse.dropWhile isWs).reverse)

/-- Fuelled core of Rust `str::replace`: replace every non-overlapping
occurrence of `pat` (left to right) with `rep`.  Fuel is the length of the
subject, which suffices because `pat` is non-empty at every call site. -/
def replaceAux (pat rep : List Char) : Nat → List Char → List Char
  | 0, s => s
  | _ + 1, [] => []
  | fuel + 1, c :: rest =>
    if !pat.isEmpty && pat.isPrefixOf (c :: rest) then
      rep ++ replaceAux pat rep fuel (List.drop pat.length (c :: rest))
    else
      c :: replaceAux pat rep fuel rest

/-- Rust `str::replace(pat, rep)`. -/
def str_replace (s pat rep : String) : String :=
  String.mk (replaceAux pat.data rep.data s.data.length s.data)

/-- Rust `str::contains(pat)`: substring containment. -/
def containsSub (pat : List Char) : List Char → Bool
  | [] => pat.isEmpty
  | c :: rest => pat.isPrefixOf (c :: rest) || containsSub pat rest

/-- Rust `str::contains` lifted to `String`. -/
def str_contains (s pat : String) : Bool :=
  containsSub pat.data s.data

/-- Rust `str::to_lowercase` (ASCII range, which is all the bot uses). -/
def to_lower (s : String) : String :=
  String.mk (s.data.map Char.toLower)

/-- Numeric value of a digit list (used by the integer parsers). -/
def digitsVal (cs : List Char) : Nat :=
  cs.foldl (fun a c => a * 10 + (c.toNat - 48)) 0

/-- Rust `str::parse::<u64>()`: optional leading `+`, then one or more
digits, value within the `u64` range; `none` models the `Err` case (which
the code turns into a panic via `unwrap`). -/
def parse_u64 (s : String) : Option Nat :=
  let cs := if s.data.head? = some '+' then s.data.tail else s.data
  if !cs.isEmpty && cs.all Char.isDigit then
    if digitsVal cs < 2 ^ 64 then some (digitsVal cs) else none
  else
    none

/-- `enum RollModifier` from `roll.rs`. -/
inductive RollModifier
  | Again10
  | Again9
  | Again8
  | NoAgain
deriving DecidableEq, Repr

/-- `fn mod_for_str(s: &str) -> RollModifier` from `roll.rs`: substring
containment tests in precedence order. -/
def mod_for_str (s : String) : RollModifier :=
  if str_contains s "no10again" then RollModifier.NoAgain
  else if str_contains s "9again" then RollModifier.Again9
  else if str_contains s "8again" then RollModifier.Again8
  else RollModifier.Again10

/-- `fn roll_again(val: u64, modifier: &RollModifier) -> bool` from `roll.rs`. -/
def roll_again (val : Nat) (modifier : RollModifier) : Bool :=
  (modifier = RollModifier.Again10 && val = 10)
    || (modifier = RollModifier.Again9 && val ≥ 9)
    || (modifier = RollModifier.Again8 && val ≥ 8)

/-- `struct Roll` from `roll.rs`. -/
structure Roll where
  val : Nat
  is_bonus : Bool
deriving DecidableEq, Repr

/-- The inner `loop` of `roll_dice`: draw from the stream, push a roll
(bonus iff not the first of the chain), stop at the first value for which
`roll_again` does not hold.  Returns the chain together with the unconsumed
stream; `none` means the finite stream of pre-drawn values ran out. -/
def rollChain (modifier : RollModifier) : Bool → List Nat → Option (List Roll × List Nat)
  | _, [] => none
  | first, v :: rest =>
    if roll_again v modifier then
      match rollChain modifier false rest with
      | none => none
      | some (rs, rem) => some (⟨v, !first⟩ :: rs, rem)
    else
      some ([⟨v, !first⟩], rest)

/-- The outer `for _ in 1..=n` of `roll_dice`: `n` chains in order. -/
def rollPool (modifier : RollModifier) : Nat → List Nat → Option (List Roll × List Nat)
  | 0, s => some ([], s)
  | n + 1, s =>
    match rollChain modifier true s with
    | none => none
    | some (rs, rem) =>
      match rollPool modifier n rem with
      | none => none
      | some (rs2, rem2) => some (rs ++ rs2, rem2)

/-- Outcome of `roll_dice`: `panicked` models the `unwrap()` panic on a
failed `u64` parse; `outOfEntropy` means the finite model of the random
stream was exhausted (the Rust sampler is inexhaustible, so this case is
an artifact of the finite stream, never of the code). -/
inductive DiceOutcome
  | panicked
  | outOfEntropy
  | ok (rolls : List Roll)
deriving DecidableEq, Repr

/-- `fn roll_dice(dice: &str, modifier: &RollModifier) -> Vec<Roll>` from
`roll.rs`, with the sampler replaced by the explicit `stream`. -/
def roll_dice (dice : String) (modifier : RollModifier) (stream : List Nat) : DiceOutcome :=
  if dice = "chance" then
    match stream with
    | [] => DiceOutcome.outOfEntropy
    | v :: _ => DiceOutcome.ok [⟨v, false⟩]
  else
    match parse_u64 dice with
    | none => DiceOutcome.panicked
    | some n =>
      match rollPool modifier n stream with
      | none => DiceOutcome.outOfEntropy
      | some (rolls, _) => DiceOutcome.ok rolls

/-- Well-formed re-roll chain whose head has bonus flag `bonus`: every die
except the last triggers `roll_again`, the last does not, and every die
after the head is a bonus die. -/
def chainFrom (modifier : RollModifier) (bonus : Bool) : List Roll → Bool
  | [] => false
  | r :: rest =>
    r.is_bonus = bonus &&
      (if roll_again r.val modifier then chainFrom modifier true rest else rest.isEmpty)

/-- `struct Health` from `characters.rs` (all fields `u64`). -/
structure Health where
  max : Nat
  bashing : Nat
  lethal : Nat
  aggravated : Nat
deriving DecidableEq, Repr

/-- `Health::new()`. -/
def Health.new : Health := ⟨0, 0, 0, 0⟩

/-- `struct Character` from `characters.rs`; the stats `HashMap<String, i64>`
is modelled as an association list with insert-overwrites semantics. -/
structure Character where
  name : String
  stats : List (String × Int)
  health : Health
deriving DecidableEq, Repr

/-- `Character::new(name)`. -/
def Character.new (name : String) : Character :=
  ⟨name, [], Health.new⟩

/-- `HashMap::get` on the association-list model. -/
def statsGet : List (String × Int) → String → Option Int
  | [], _ => none
  | (k, v) :: rest, key => if k = key then some v else statsGet rest key

/-- `HashMap::insert` on the association-list model: overwrite in place if
the key is present, append otherwise. -/
def statsInsert : List (String × Int) → String → Int → List (String × Int)
  | [], key, value => [(key, value)]
  | (k, v) :: rest, key, value =>
    if k = key then (key, value) :: rest else (k, v) :: statsInsert rest key value

/-- `Character::get_value`: look up the lower-cased key, returning
`(found, value)` with a default of 0. -/
def Character.get_value (c : Character) (key : String) : Bool × Int :=
  match statsGet c.stats (to_lower key) with
  | some i => (true, i)
  | none => (false, 0)

/-- `Character::set_value`: store under the lower-cased key. -/
def Character.set_value (c : Character) (key : String) (value : Int) : Character :=
  { c with stats := statsInsert c.stats (to_lower key) value }

/-- `REGEX_NUMERIC` (`^\d+$`) applied to a token. -/
def is_numeric (s : String) : Bool :=
  !s.data.isEmpty && s.data.all Char.isDigit

/-- `REGEX_AGAIN` (`^(?:no)?\d+again$`) applied to a token: an optional
`no`, then one or more digits, then exactly `again`. -/
def is_again_token (s : String) : Bool :=
  let cs := if ("no".data).isPrefixOf s.data then s.data.drop 2 else s.data
  let digits := cs.takeWhile Char.isDigit
  !digits.isEmpty && cs.drop digits.length = "again".data

/-- `struct AttribRollResult` from `roll.rs`. -/
structure AttribRollResult where
  pool : Int
  modifier : RollModifier
  attributes : List (String × Int)
  attribs_not_found : List String
deriving DecidableEq, Repr

/-- Running state of `roll_attribs`' token walk: the mutable locals
`pool`, `multiplier`, `attributes`, `attribs_not_found`. -/
structure EvalState where
  pool : Int
  multiplier : Int
  attributes : List (String × Int)
  attribs_not_found : List String
deriving DecidableEq, Repr

/-- One iteration of the token loop in `roll_attribs`.  `-` sets the
multiplier and `continue`s (skipping the reset); a numeric token adds
`literal * multiplier`; `+` adds nothing; any other token is an attribute
lookup contributing `value * multiplier`; every non-`-` path ends with
`multiplier = 1`. -/
def evalToken (character : Character) (st : EvalState) (part0 : String) : EvalState :=
  let part := str_trim part0
  if part = "-" then
    { st with multiplier := -1 }
  else
    let st' :=
      if is_numeric part then
        { st with pool := st.pool + (digitsVal part.data : Int) * st.multiplier }
      else if part ≠ "+" then
        let fv := character.get_value part
        let st2 :=
          if !fv.1 then
            { st with attribs_not_found := st.attribs_not_found ++ [part] }
          else
            { st with attributes := statsInsert st.attributes part fv.2 }
        { st2 with pool := st2.pool + fv.2 * st2.multiplier }
      else st
    { st' with multiplier := 1 }

/-- `fn roll_attribs(character: &Character, line: &str) -> AttribRollResult`
from `roll.rs`: pick the first whitespace token matching `REGEX_AGAIN` as
the modifier token and delete its text from the line (defaulting to
`10again`), space out `+` and `-`, then walk the tokens. -/
def roll_attribs (character : Character) (line : String) : AttribRollResult :=
  let again_parts := (split_whitespace line).filter is_again_token
  let lm : String × String :=
    match again_parts with
    | [] => (line, "10again")
    | p :: _ => (str_replace line p "", str_trim p)
  let line2 := str_replace (str_replace lm.1 "+" " + ") "-" " - "
  let final := (split_whitespace line2).foldl (evalToken character) ⟨0, 1, [], []⟩
  ⟨final.pool, mod_for_str lm.2, final.attributes, final.attribs_not_found⟩

/-- `fn count_successes(rolls: &[Roll]) -> String` from `roll.rs`. -/
def count_successes (rolls : List Roll) : String :=
  let count := (rolls.filter (fun e => e.val > 7)).length
  let text := if count ≠ 1 then "successes" else "success"
  Nat.repr count ++ " " ++ text ++ ": "

/-- `struct CharacterStore` from `characters.rs`. -/
structure CharacterStore where
  characters : List Character
deriving DecidableEq, Repr

/-- Comma-join for compact JSON rendering. -/
def joinComma : List String → String
  | [] => ""
  | [x] => x
  | x :: y :: rest => x ++ "," ++ joinComma (y :: rest)

/-- JSON string escaping (the quote/backslash cases; the store's data is
plain ASCII identifiers). -/
def json_escape (s : String) : String :=
  String.mk (s.data.foldr
    (fun c acc => if c = '"' || c = '\\' then '\\' :: c :: acc else c :: acc) [])

/-- Render a JSON string literal. -/
def json_str (s : String) : String :=
  "\"" ++ json_escape s ++ "\""

/-- `serde_json::to_string` of the stats map (compact form). -/
def stats_to_json (stats : List (String × Int)) : String :=
  "\x7b" ++ joinComma (stats.map fun p => json_str p.1 ++ ":" ++ Int.repr p.2) ++ "\x7d"

/-- `serde_json::to_string` of `Health` (fields in declaration order, as
serde serializes derived structs). -/
def health_to_json (h : Health) : String :=
  "\x7b\"max\":" ++ Nat.repr h.max ++ ",\"bashing\":" ++ Nat.repr h.bashing
    ++ ",\"lethal\":" ++ Nat.repr h.lethal ++ ",\"aggravated\":" ++ Nat.repr h.aggravated
    ++ "\x7d"

/-- `serde_json::to_string` of `Character`: all three derived fields
(`name`, `stats`, `health`) in declaration order. -/
def character_to_json (c : Character) : String :=
  "\x7b\"name\":" ++ json_str c.name ++ ",\"stats\":" ++ stats_to_json c.stats
    ++ ",\"health\":" ++ health_to_json c.health ++ "\x7d"

/-- The exact text `CharacterStore::save` writes to the file
(`serde_json::to_string(&self)`). -/
def CharacterStore.save_output (cs : CharacterStore) : String :=
  "\x7b\"characters\":[" ++ joinComma (cs.characters.map character_to_json) ++ "]\x7d"

/-- JSON values, for the model of `serde_json::from_str`. -/
inductive Json
  | jnull
  | jbool (b : Bool)
  | jnum (n : Int)
  | jstr (s : String)
  | jarr (xs : List Json)
  | jobj (fields : List (String × Json))
deriving Repr

/-- Skip JSON whitespace. -/
def skipWs (cs : List Char) : List Char := cs.dropWhile isWs

/-- Parse the body of a JSON string literal after the opening quote,
handling the `\"`, `\\`, `\n`, `\t` escapes. -/
def parseStringBody : Nat → List Char → Option (List Char × List Char)
  | 0, _ => none
  | _ + 1, [] => none
  | fuel + 1, c :: rest =>
    if c = '"' then some ([], rest)
    else if c = '\\' then
      match rest with
      | [] => none
      | e :: rest2 =>
        let dc := if e = 'n' then '\n' else if e = 't' then '\t' else e
        match parseStringBody fuel rest2 with
        | none => none
        | some (body, rem) => some (dc :: body, rem)
    else
      match parseStringBody fuel rest with
      | none => none
      | some (body, rem) => some (c :: body, rem)

/-- Parse a JSON integer (optional minus, one or more digits). -/
def parseNumber (cs : List Char) : Option (Int × List Char) :=
  let neg := cs.head? = some '-'
  let cs2 := if neg then cs.tail else cs
  let digits := cs2.takeWhile Char.isDigit
  if digits.isEmpty then none
  else
    let n : Int := digitsVal digits
    some (if neg then -n else n, cs2.drop digits.length)

/-- What the fuelled JSON parser is currently parsing: a single value, the
items of an array after its first `[`, or the fields of an object after its
first brace. -/
inductive PMode
  | value
  | arrTail
  | objTail

/-- Recursive-descent JSON parser, fuelled so that recursion is structural.
In `arrTail`/`objTail` mode it returns the remaining items/fields wrapped
in `jarr`/`jobj`. -/
def parseJ : Nat → PMode → List Char → Option (Json × List Char)
  | 0, _, _ => none
  | fuel + 1, PMode.value, cs0 =>
    match skipWs cs0 with
    | [] => none
    | c :: rest =>
      if c = '"' then
        match parseStringBody (rest.length + 1) rest with
        | none => none
        | some (body, rem) => some (Json.jstr (String.mk body), rem)
      else if c = '[' then
        match skipWs rest with
        | ']' :: rem => some (Json.jarr [], rem)
        | _ => parseJ fuel PMode.arrTail rest
      else if c = '\x7b' then
        match skipWs rest with
        | '\x7d' :: rem => some (Json.jobj [], rem)
        | _ => parseJ fuel PMode.objTail rest
      else if ("true".data).isPrefixOf (c :: rest) then
        some (Json.jbool true, (c :: rest).drop 4)
      else if ("false".data).isPrefixOf (c :: rest) then
        some (Json.jbool false, (c :: rest).drop 5)
      else if ("null".data).isPrefixOf (c :: rest) then
        some (Json.jnull, (c :: rest).drop 4)
      else
        match parseNumber (c :: rest) with
        | none => none
        | some (n, rem) => some (Json.jnum n, rem)
  | fuel + 1, PMode.arrTail, cs0 =>
    match parseJ fuel PMode.value cs0 with
    | none => none
    | some (v, rem) =>
      match skipWs rem with
      | ',' :: rem2 =>
        match parseJ fuel PMode.arrTail rem2 with
        | some (Json.jarr xs, rem3) => some (Json.jarr (v :: xs), rem3)
        | _ => none
      | ']' :: rem2 => some (Json.jarr [v], rem2)
      | _ => none
  | fuel + 1, PMode.objTail, cs0 =>
    match skipWs cs0 with
    | '"' :: rest =>
      match parseStringBody (rest.length + 1) rest with
      | none => none
      | some (key, rem) =>
        match skipWs rem with
        | ':' :: rem2 =>
          match parseJ fuel PMode.value rem2 with
          | none => none
          | some (v, rem3) =>
            match skipWs rem3 with
            | ',' :: rem4 =>
              match parseJ fuel PMode.objTail rem4 with
              | some (Json.jobj fs, rem5) =>
                some (Json.jobj ((String.mk key, v) :: fs), rem5)
              | _ => none
            | '\x7d' :: rem4 => some (Json.jobj [(String.mk key, v)], rem4)
            | _ => none
        | _ => none
    | _ => none

/-- First field with the given key (serde reads the first occurrence). -/
def jlookup : List (String × Json) → String → Option Json
  | [], _ => none
  | (k, v) :: rest, key => if k = key then some v else jlookup rest key

/-- Decode a `u64` field: an integer that is not negative. -/
def decodeU64 : Option Json → Option Nat
  | some (Json.jnum n) => if 0 ≤ n then some n.toNat else none
  | _ => none

/-- Decode `Health` (all four fields required, as serde derives demand). -/
def decodeHealth : Json → Option Health
  | Json.jobj fields =>
    match decodeU64 (jlookup fields "max"), decodeU64 (jlookup fields "bashing"),
        decodeU64 (jlookup fields "lethal"), decodeU64 (jlookup fields "aggravated") with
    | some m, some b, some l, some a => some ⟨m, b, l, a⟩
    | _, _, _, _ => none
  | _ => none

/-- Decode the stats map (every value must be an integer). -/
def decodeStats : Json → Option (List (String × Int))
  | Json.jobj fields =>
    fields.foldr
      (fun kv acc =>
        match acc, kv.2 with
        | some m, Json.jnum n => some ((kv.1, n) :: m)
        | _, _ => none)
      (some [])
  | _ => none

/-- Decode `Character`: `name`, `stats` and `health` are all required
fields (the derive has no `serde(default)`), unknown fields are ignored. -/
def decodeCharacter (j : Json) : Option Character :=
  match j with
  | Json.jobj fields =>
    match jlookup fields "name", decodeStats (jlookup fields "stats" |>.getD Json.jnull),
        decodeHealth (jlookup fields "health" |>.getD Json.jnull) with
    | some (Json.jstr n), some st, some h => some ⟨n, st, h⟩
    | _, _, _ => none
  | _ => none

/-- Decode each element of the `characters` array. -/
def decodeCharacterList : List Json → Option (List Character)
  | [] => some []
  | j :: rest =>
    match decodeCharacter j, decodeCharacterList rest with
    | some c, some cs => some (c :: cs)
    | _, _ => none

/-- Decode `CharacterStore` (the `characters` field is required). -/
def decodeStore (j : Json) : Option CharacterStore :=
  match j with
  | Json.jobj fields =>
    match jlookup fields "characters" with
    | some (Json.jarr xs) =>
      match decodeCharacterList xs with
      | some cs => some ⟨cs⟩
      | none => none
    | _ => none
  | _ => none

/-- Model of `serde_json::from_str::<CharacterStore>`: parse one JSON
document, require only trailing whitespace, then decode. -/
def serde_from_str (s : String) : Option CharacterStore :=
  match parseJ (2 * s.data.length + 4) PMode.value s.data with
  | none => none
  | some (j, rem) => if (skipWs rem).isEmpty then decodeStore j else none

/-- `CharacterStore::from_file`: the argument is the result of
`fs::read_to_string` (`none` = the read failed: missing or unreadable
file).  A failed read falls back to the literal `{"characters":[]}`; the
subsequent `serde_json::from_str(&content)?` propagates any parse error. -/
def from_file (content : Option String) : Except Unit CharacterStore :=
  let c := content.getD "\x7b\"characters\":[]\x7d"
  match serde_from_str c with
  | some cs => Except.ok cs
  | none => Except.error ()

/-- Remove the first token matching the again grammar from a token list. -/
def removeFirstMatch : List String → List String
  | [] => []
  | t :: rest => if is_again_token t then rest else t :: removeFirstMatch rest

/-- Join tokens back into a line with single spaces. -/
def joinSpace : List String → String
  | [] => ""
  | [x] => x
  | x :: y :: rest => x ++ " " ++ joinSpace (y :: rest)

/-- Claim-side variant of `roll_attribs`, following C6's words instead of
the source: exactly the first whitespace token matching the again grammar
is removed from the line and every other token is left intact; the rest of
the evaluation is unchanged.  Declared only to be compared with
`roll_attribs`. -/
def roll_attribs_first_removed (character : Character) (line : String) : AttribRollResult :=
  let toks := split_whitespace line
  let again_parts := toks.filter is_again_token
  let lm : String × String :=
    match again_parts with
    | [] => (line, "10again")
    | p :: _ => (joinSpace (removeFirstMatch toks), str_trim p)
  let line2 := str_replace (str_replace lm.1 "+" " + ") "-" " - "
  let final := (split_whitespace line2).foldl (evalToken character) ⟨0, 1, [], []⟩
  ⟨final.pool, mod_for_str lm.2, final.attributes, final.attribs_not_found⟩

/-- Every chain produced by the inner roll loop is well formed: the head
carries the bonus flag `!first`, later dice are bonus dice, and the chain
continues exactly while `roll_again` triggers. -/
theorem rollChain_chainFrom (modifier : RollModifier) :
    ∀ (s : List Nat) (first : Bool) (rs : List Roll) (rem : List Nat),
      rollChain modifier first s = some (rs, rem) →
      chainFrom modifier (!first) rs = true := by
  intro s
  induction s with
  | nil => intro first rs rem h; simp [rollChain] at h
  | cons v rest ih =>
    intro first rs rem h
    simp only [rollChain] at h
    by_cases hra : roll_again v modifier = true
    · rw [if_pos hra] at h
      cases hc : rollChain modifier false rest with
      | none => rw [hc] at h; simp at h
      | some pr =>
        rw [hc] at h
        obtain ⟨rs', rem'⟩ := pr
        simp only [Option.some.injEq, Prod.mk.injEq] at h
        obtain ⟨h1, _⟩ := h
        subst h1
        have htail := ih false rs' rem' hc
        simp only [chainFrom, hra, if_true, Bool.not_false] at htail ⊢
        simpa using htail
    · rw [if_neg hra] at h
      simp only [Option.some.injEq, Prod.mk.injEq] at h
      obtain ⟨h1, _⟩ := h
      subst h1
      simp [chainFrom, hra]

/-- The outer loop produces exactly `n` well-formed chains, concatenated in
generation order. -/
theorem rollPool_chains (modifier : RollModifier) :
    ∀ (n : Nat) (s : List Nat) (rs : List Roll) (rem : List Nat),
      rollPool modifier n s = some (rs, rem) →
      ∃ chains : List (List Roll), rs = chains.flatten ∧ chains.length = n ∧
        ∀ c ∈ chains, chainFrom modifier false c = true := by
  intro n
  induction n with
  | zero =>
    intro s rs rem h
    simp only [rollPool, Option.some.injEq, Prod.mk.injEq] at h
    exact ⟨[], by simp [← h.1], rfl, by simp⟩
  | succ n ih =>
    intro s rs rem h
    simp only [rollPool] at h
    cases hc : rollChain modifier true s with
    | none => rw [hc] at h; simp at h
    | some pr =>
      obtain ⟨rs1, rem1⟩ := pr
      rw [hc] at h
      dsimp only at h
      cases hp : rollPool modifier n rem1 with
      | none => simp [hp] at h
      | some pr2 =>
        rw [hp] at h
        obtain ⟨rs2, rem2⟩ := pr2
        simp only [Option.some.injEq, Prod.mk.injEq] at h
        obtain ⟨h1, _⟩ := h
        obtain ⟨chains, hjoin, hlen, hall⟩ := ih rem1 rs2 rem2 hp
        refine ⟨rs1 :: chains, ?_, by simp [hlen], ?_⟩
        · simp [← h1, hjoin]
        · intro c hcmem
          rcases List.mem_cons.mp hcmem with hceq | hmem
          · have := rollChain_chainFrom modifier s true rs1 rem1 hc
            rw [hceq]
            simpa using this
          · exact hall c hmem

/-- C1: evaluating `"  strength +  athletics- 1 9again"` against a
character with no stats yields pool `-1`, modifier `Again9` and
`attribs_not_found = ["strength", "athletics"]` in that order; after
`set_value "strength" 3` and `set_value "athletics" 1` the same line
yields pool `3` with an empty not-found list. -/
theorem roll_attribs_example :
    roll_attribs (Character.new "") "  strength +  athletics- 1 9again" =
      ⟨-1, RollModifier.Again9, [], ["strength", "athletics"]⟩ ∧
    roll_attribs (((Character.new "").set_value "strength" 3).set_value "athletics" 1)
        "  strength +  athletics- 1 9again" =
      ⟨3, RollModifier.Again9, [("strength", 3), ("athletics", 1)], []⟩ :=
  ⟨rfl, rfl⟩

/-- C2: `roll_dice "chance"` returns exactly one non-bonus roll with no
re-roll applied, whatever the modifier; for a pool string parsing to `n`,
the output is the concatenation of exactly `n` chains in generation order,
each chain starting with a non-bonus die, continuing with bonus dice
exactly while `roll_again` triggers, and ending at the first
non-triggering value; pool `0` yields the empty sequence. -/
theorem roll_dice_chance_and_chains (modifier : RollModifier) (stream : List Nat)
    (s : String) (n : Nat) (hs : parse_u64 s = some n) :
    (∀ (st : List Nat) (rolls : List Roll),
      roll_dice "chance" modifier st = DiceOutcome.ok rolls →
        ∃ v, rolls = [⟨v, false⟩]) ∧
    (∀ rolls : List Roll,
      roll_dice s modifier stream = DiceOutcome.ok rolls →
        ∃ chains : List (List Roll), rolls = chains.flatten ∧ chains.length = n ∧
          ∀ c ∈ chains, chainFrom modifier false c = true) ∧
    roll_dice "0" modifier stream = DiceOutcome.ok [] := by
  refine ⟨?_, ?_, rfl⟩
  · intro st rolls h
    cases st with
    | nil => simp [roll_dice] at h
    | cons v rest =>
      simp only [roll_dice, if_pos rfl] at h
      cases h
      exact ⟨v, rfl⟩
  · intro rolls h
    have hsne : s ≠ "chance" := by
      intro he
      rw [he] at hs
      have h0 : parse_u64 "chance" = none := rfl
      rw [h0] at hs
      exact Option.noConfusion hs
    unfold roll_dice at h
    rw [if_neg hsne, hs] at h
    dsimp only at h
    cases hp : rollPool modifier n stream with
    | none => rw [hp] at h; exact DiceOutcome.noConfusion h
    | some pr =>
      obtain ⟨rs, rem⟩ := pr
      rw [hp] at h
      dsimp only at h
      obtain ⟨chains, hjoin, hlen, hall⟩ := rollPool_chains modifier n stream rs rem hp
      cases h
      exact ⟨chains, hjoin, hlen, hall⟩

/-- C2 witness: hypotheses of `roll_dice_chance_and_chains` discharged at
the pool string `"2"` with pre-drawn values `[10, 3, 5]`. -/
theorem roll_dice_chance_and_chains_witness :
    roll_dice "0" RollModifier.Again10 [10, 3, 5] = DiceOutcome.ok [] :=
  (roll_dice_chance_and_chains RollModifier.Again10 [10, 3, 5] "2" 2 (by decide)).2.2

/-- C3: for every die value in `[1, 10]`, `Again10` triggers exactly on 10,
`Again9` exactly on values ≥ 9, `Again8` exactly on values ≥ 8, and
`NoAgain` never triggers. -/
theorem roll_again_thresholds (v : Nat) (h1 : 1 ≤ v) (h2 : v ≤ 10) :
    (roll_again v RollModifier.Again10 = true ↔ v = 10) ∧
    (roll_again v RollModifier.Again9 = true ↔ 9 ≤ v) ∧
    (roll_again v RollModifier.Again8 = true ↔ 8 ≤ v) ∧
    roll_again v RollModifier.NoAgain = false := by
  interval_cases v <;> refine ⟨by decide, by decide, by decide, by decide⟩

/-- C3 witness: the thresholds instantiated at the concrete value 9. -/
theorem roll_again_thresholds_witness :
    (roll_again 9 RollModifier.Again10 = true ↔ 9 = 10) ∧
    (roll_again 9 RollModifier.Again9 = true ↔ 9 ≤ 9) ∧
    (roll_again 9 RollModifier.Again8 = true ↔ 8 ≤ 9) ∧
    roll_again 9 RollModifier.NoAgain = false :=
  roll_again_thresholds 9 (by decide) (by decide)

/-- C4: `mod_for_str` is total on strings and follows substring-containment
precedence: `no10again` wins, then `9again`, then `8again`, and everything
else defaults to `Again10`. -/
theorem mod_for_str_precedence (s : String) :
    (str_contains s "no10again" = true → mod_for_str s = RollModifier.NoAgain) ∧
    (str_contains s "no10again" = false → str_contains s "9again" = true →
      mod_for_str s = RollModifier.Again9) ∧
    (str_contains s "no10again" = false → str_contains s "9again" = false →
      str_contains s "8again" = true → mod_for_str s = RollModifier.Again8) ∧
    (str_contains s "no10again" = false → str_contains s "9again" = false →
      str_contains s "8again" = false → mod_for_str s = RollModifier.Again10) := by
  refine ⟨fun h1 => ?_, fun h1 h2 => ?_, fun h1 h2 h3 => ?_, fun h1 h2 h3 => ?_⟩
  · simp [mod_for_str, h1]
  · simp [mod_for_str, h1, h2]
  · simp [mod_for_str, h1, h2, h3]
  · simp [mod_for_str, h1, h2, h3]

/-- C4 witness: the `9again` branch discharged at the embedded token
`"x9again"`. -/
theorem mod_for_str_precedence_witness :
    mod_for_str "x9again" = RollModifier.Again9 :=
  (mod_for_str_precedence "x9again").2.1 (by decide) (by decide)

/-- Success count ignores the bonus flag: filtering on `val > 7` commutes
with erasing `is_bonus`. -/
theorem successes_ignore_bonus (rolls : List Roll) :
    ((rolls.map (fun r => (⟨r.val, false⟩ : Roll))).filter (fun e => e.val > 7)).length =
      (rolls.filter (fun e => e.val > 7)).length := by
  induction rolls with
  | nil => rfl
  | cons r rest ih =>
    by_cases h : r.val > 7 <;> simp [List.filter_cons, h, ih]

/-- C5: `count_successes` renders the count of rolls valued above 7 with
the singular noun exactly when that count is 1, and the count is blind to
the bonus flag. -/
theorem count_successes_spec (rolls : List Roll) :
    count_successes rolls =
      Nat.repr ((rolls.filter (fun e => e.val > 7)).length) ++
        (if (rolls.filter (fun e => e.val > 7)).length = 1
          then " success: " else " successes: ") ∧
    count_successes (rolls.map (fun r => ⟨r.val, false⟩)) = count_successes rolls := by
  constructor
  · unfold count_successes
    by_cases h : (rolls.filter (fun e => e.val > 7)).length = 1
    · rw [if_pos h]
      simp only [h, ne_eq, not_true_eq_false, if_false]
      rw [String.append_assoc, String.append_assoc]
      rfl
    · rw [if_neg h]
      simp only [ne_eq, h, not_false_eq_true, if_true]
      rw [String.append_assoc, String.append_assoc]
      rfl
  · unfold count_successes
    rw [successes_ignore_bonus]

/-- C6 counterexample: on the line `"9again 9again"` the code removes BOTH
tokens (because `str::replace` deletes every occurrence of the first
matching token's text), leaving nothing to look up — whereas the
first-token-only removal described by the claim
(`roll_attribs_first_removed`) leaves the second `"9again"` intact, which
is then treated as an unresolved attribute. -/
theorem again_removal_counterexample :
    (roll_attribs (Character.new "") "9again 9again").attribs_not_found = [] ∧
    (roll_attribs_first_removed (Character.new "") "9again 9again").attribs_not_found =
      ["9again"] :=
  ⟨rfl, rfl⟩

/-- C6 amended: when at least one whitespace token matches `^(no)?\d+again$`,
the first such token becomes the modifier token and EVERY occurrence of its
text is deleted from the line — later matching tokens disappear and the
text is excised even from inside larger tokens (here `x9againy` becomes the
attribute `xy`); when no token matches, the modifier defaults to `10again`. -/
theorem again_removal_replaces_all (c : Character) (h : c.stats = []) :
    roll_attribs c "9again x9againy 9again" =
      ⟨0, RollModifier.Again9, [], ["xy"]⟩ ∧
    roll_attribs c "strength" = ⟨0, RollModifier.Again10, [], ["strength"]⟩ := by
  obtain ⟨name, stats, hl⟩ := c
  cases h
  exact ⟨rfl, rfl⟩

/-- C6 witness: the amended statement discharged on a stat-less character. -/
theorem again_removal_replaces_all_witness :
    roll_attribs (Character.new "") "9again x9againy 9again" =
      ⟨0, RollModifier.Again9, [], ["xy"]⟩ ∧
    roll_attribs (Character.new "") "strength" =
      ⟨0, RollModifier.Again10, [], ["strength"]⟩ :=
  again_removal_replaces_all (Character.new "") rfl

/-- C7 counterexample: in `"5 - + 3"` the code yields pool 8, not the 2
that a multiplier surviving across `"+"` would give: the `multiplier = 1`
reset at the end of the loop body runs for the `"+"` token too. -/
theorem plus_after_minus_counterexample :
    (roll_attribs (Character.new "") "5 - + 3").pool = 8 ∧ (8 : Int) ≠ 5 - 3 :=
  ⟨rfl, by decide⟩

/-- C7 amended: the token `"+"` adds nothing to the pool but, like every
token other than `"-"`, it ends its loop iteration by resetting the
multiplier to +1; `"-"` sets the multiplier to −1 and skips the reset.
Hence `"5 - + 3"` evaluates to 8, the `"-"` being cancelled by the `"+"`. -/
theorem plus_resets_multiplier (c : Character) (st : EvalState) :
    evalToken c st "+" = { st with multiplier := 1 } ∧
    evalToken c st "-" = { st with multiplier := -1 } ∧
    (roll_attribs (Character.new "") "5 - + 3").pool = 8 :=
  ⟨rfl, rfl, rfl⟩

/-- C8: the persisted text for the store holding the single character
`A` with stat `a = 100` is NOT the documented
`{"characters":[{"name":"A","stats":{"a":100}}]}`: the derived serializer
also emits the `health` field, and conversely the documented text fails to
deserialize because `health` is a required field. -/
theorem save_output_includes_health :
    CharacterStore.save_output ⟨[(Character.new "A").set_value "a" 100]⟩ =
      "\x7b\"characters\":[\x7b\"name\":\"A\",\"stats\":\x7b\"a\":100\x7d,\"health\":\x7b\"max\":0,\"bashing\":0,\"lethal\":0,\"aggravated\":0\x7d\x7d]\x7d" ∧
    CharacterStore.save_output ⟨[(Character.new "A").set_value "a" 100]⟩ ≠
      "\x7b\"characters\":[\x7b\"name\":\"A\",\"stats\":\x7b\"a\":100\x7d\x7d]\x7d" ∧
    serde_from_str "\x7b\"characters\":[\x7b\"name\":\"A\",\"stats\":\x7b\"a\":100\x7d\x7d]\x7d" =
      none :=
  ⟨rfl, by decide, rfl⟩

/-- C9 counterexample: a readable file with unparseable content makes
`from_file` surface an error instead of returning the empty store. -/
theorem from_file_corrupt_surfaces_error :
    from_file (some "x") = Except.error () ∧
    from_file (some "x") ≠ Except.ok ⟨[]⟩ := by
  refine ⟨rfl, fun h => ?_⟩
  rw [show from_file (some "x") = Except.error () from rfl] at h
  exact Except.noConfusion h

/-- C9 amended: only a failed READ (missing or unreadable file) is
recovered as the empty store; once content is read, a parse failure is
propagated to the caller and a parse success is returned as is. -/
theorem from_file_error_handling (s : String) (cs : CharacterStore) :
    from_file none = Except.ok ⟨[]⟩ ∧
    (serde_from_str s = none → from_file (some s) = Except.error ()) ∧
    (serde_from_str s = some cs → from_file (some s) = Except.ok cs) := by
  refine ⟨rfl, fun h => ?_, fun h => ?_⟩ <;> simp [from_file, h]

/-- C9 witness: the error-propagation branch discharged at content `"x"`
and the success branch at the default empty-store document. -/
theorem from_file_error_handling_witness :
    from_file (some "x") = Except.error () ∧
    from_file (some "\x7b\"characters\":[]\x7d") = Except.ok ⟨[]⟩ :=
  ⟨(from_file_error_handling "x" ⟨[]⟩).2.1 rfl,
   (from_file_error_handling "\x7b\"characters\":[]\x7d" ⟨[]⟩).2.2 rfl⟩

/-- A negative `i64` renders with a leading minus sign, which neither
parses as a `u64` nor equals the `chance` keyword. -/
theorem parse_u64_int_repr_neg (p : Int) (hp : p < 0) :
    parse_u64 (Int.repr p) = none ∧ Int.repr p ≠ "chance" := by
  cases p with
  | ofNat k => exact absurd hp (Int.not_lt.mpr (Int.ofNat_nonneg k))
  | negSucc m =>
    have hdata : (Int.repr (Int.negSucc m)).data = '-' :: (Nat.repr (m + 1)).data := by
      show ("-" ++ Nat.repr (m + 1)).data = _
      rw [String.data_append]
      rfl
    constructor
    · simp [parse_u64, hdata]
    · intro he
      have hd := congrArg String.data he
      rw [hdata, show "chance".data = ['c', 'h', 'a', 'n', 'c', 'e'] from rfl] at hd
      injection hd with h1 _
      exact absurd h1 (by decide)

/-- C10: `roll_dice` panics exactly when its pool string is neither the
`chance` keyword nor a parseable `u64`; in particular the attribute path,
which renders the evaluator's signed pool with `to_string` and passes it
straight to `roll_dice`, panics whenever the pool is negative. -/
theorem roll_dice_bad_pool_panics (s : String) (m m2 : RollModifier)
    (stream stream2 : List Nat) (c : Character) (line : String) :
    (roll_dice s m stream = DiceOutcome.panicked ↔ s ≠ "chance" ∧ parse_u64 s = none) ∧
    ((roll_attribs c line).pool < 0 →
      roll_dice (Int.repr (roll_attribs c line).pool) m2 stream2 = DiceOutcome.panicked) := by
  constructor
  · constructor
    · intro h
      by_cases hc : s = "chance"
      · subst hc
        unfold roll_dice at h
        rw [if_pos rfl] at h
        cases stream with
        | nil => exact DiceOutcome.noConfusion h
        | cons v rest => exact DiceOutcome.noConfusion h
      · refine ⟨hc, ?_⟩
        unfold roll_dice at h
        rw [if_neg hc] at h
        cases hp : parse_u64 s with
        | none => rfl
        | some n =>
          rw [hp] at h
          dsimp only at h
          cases hr : rollPool m n stream with
          | none => rw [hr] at h; exact DiceOutcome.noConfusion h
          | some pr =>
            obtain ⟨a, b⟩ := pr
            rw [hr] at h
            exact DiceOutcome.noConfusion h
    · rintro ⟨hc, hp⟩
      unfold roll_dice
      rw [if_neg hc, hp]
  · intro hneg
    have hh := parse_u64_int_repr_neg _ hneg
    unfold roll_dice
    rw [if_neg hh.2, hh.1]

/-- C10 witness: the spec's own example line, whose pool evaluates to −1
on a stat-less character, makes `roll_dice` panic. -/
theorem roll_dice_bad_pool_panics_witness :
    roll_dice
        (Int.repr (roll_attribs (Character.new "") "  strength +  athletics- 1 9again").pool)
        RollModifier.Again9 [] = DiceOutcome.panicked :=
  (roll_dice_bad_pool_panics "x" RollModifier.Again10 RollModifier.Again9 [] []
      (Character.new "") "  strength +  athletics- 1 9again").2 (by decide)

end DiceRoller
